import Mathlib

/-!
Verification of the session-gated API-proxy pipeline of the firecrawl-webapp
repository: credential-store parsing and the credential authorizer
(src/lib/auth.ts), and the agent request proxy handler
(src/app/api/agent/route.ts), embedded shallowly over a model of untyped
JSON values with JavaScript truthiness.
-/

namespace FirecrawlWebapp

/-- A JavaScript/JSON value as it flows through the untyped upstream
responses. `obj` keeps the field list in insertion order, as a JS object
does. A field that is absent is represented by `Option` at the use site. -/
inductive JsonVal : Type where
  | str (s : String)
  | num (n : Int)
  | bool (b : Bool)
  | null
  | arr (elems : List JsonVal)
  | obj (fields : List (String × JsonVal))
deriving Repr

/-- JavaScript truthiness of a defined value: empty string, zero, `false`
and `null` are falsy; every object and array is truthy. -/
def jsTruthy : JsonVal → Bool
  | .str s => s ≠ ""
  | .num n => n ≠ 0
  | .bool b => b
  | .null => false
  | .arr _ => true
  | .obj _ => true

/-- Truthiness of a possibly-undefined value: `undefined` is falsy. -/
def jsTruthyOpt : Option JsonVal → Bool
  | none => false
  | some v => jsTruthy v

/-- Property read `o.k` on a JS object: the first binding wins, absence is
`none` (undefined). -/
def jsGet (fields : List (String × JsonVal)) (k : String) : Option JsonVal :=
  (fields.find? (fun p => p.1 = k)).map (fun p => p.2)

/-- The whitespace class trimmed by the JS String.prototype.trim. -/
def isJsWhitespace (c : Char) : Bool :=
  c = ' ' ∨ c = '\t' ∨ c = '\n' ∨ c = '\r'

/-- JS String.prototype.trim: strip leading and trailing whitespace.
Implemented structurally over the character list so that it computes. -/
def jsTrim (s : String) : String :=
  ⟨(((s.data.dropWhile isJsWhitespace).reverse.dropWhile isJsWhitespace).reverse)⟩

/-- Accumulator pass of the single-character split below. -/
def splitOnCharAux (sep : Char) : List Char → List Char → List (List Char)
  | [], acc => [acc.reverse]
  | c :: cs, acc =>
      if c = sep then acc.reverse :: splitOnCharAux sep cs []
      else splitOnCharAux sep cs (c :: acc)

/-- JS String.prototype.split with a one-character separator, as used with
"," and ":" in the source. Implemented structurally so that it computes. -/
def splitOnChar (s : String) (sep : Char) : List String :=
  (splitOnCharAux sep s.data []).map (fun l => ⟨l⟩)

/-- Escapes a string body the way JSON.stringify quotes it (backslash and
double quote escaped). -/
def jsonEscape (s : String) : String :=
  s.data.foldl
    (fun acc c =>
      if c = '"' then acc ++ "\\\""
      else if c = '\\' then acc ++ "\\\\"
      else acc ++ String.singleton c)
    ""

mutual

/-- JSON.stringify of a value, with the default compact separators. -/
def jsonStringify : JsonVal → String
  | .str s => "\"" ++ jsonEscape s ++ "\""
  | .num n => toString n
  | .bool b => if b then "true" else "false"
  | .null => "null"
  | .arr xs => "[" ++ jsonStringifyList xs ++ "]"
  | .obj fs => "\x7b" ++ jsonStringifyFields fs ++ "\x7d"

/-- Comma-joined serialization of array elements. -/
def jsonStringifyList : List JsonVal → String
  | [] => ""
  | [x] => jsonStringify x
  | x :: xs => jsonStringify x ++ "," ++ jsonStringifyList xs

/-- Comma-joined serialization of object fields. -/
def jsonStringifyFields : List (String × JsonVal) → String
  | [] => ""
  | [(k, v)] => "\"" ++ jsonEscape k ++ "\":" ++ jsonStringify v
  | (k, v) :: fs =>
      "\"" ++ jsonEscape k ++ "\":" ++ jsonStringify v ++ "," ++ jsonStringifyFields fs

end

/-! ## Credential store (src/lib/auth.ts, getDemoUsers) -/

/-- One `users.set(k, v)` step on the insertion-ordered map: an existing key
is overwritten in place, a new key is appended. -/
def mapSet (m : List (String × String)) (k v : String) : List (String × String) :=
  if m.any (fun p => p.1 = k) then
    m.map (fun p => if p.1 = k then (k, v) else p)
  else
    m ++ [(k, v)]

/-- Lookup `users.get(k)` on the insertion-ordered map. -/
def mapGet (m : List (String × String)) (k : String) : Option String :=
  (m.find? (fun p => p.1 = k)).map (fun p => p.2)

/-- One iteration of the forEach body in getDemoUsers: split the pair on
":", destructure the first two tokens, and store them trimmed when both are
non-empty (JS truthiness of the untrimmed tokens). -/
def parsePairStep (users : List (String × String)) (pair : String) :
    List (String × String) :=
  let parts := splitOnChar pair ':' 
  match parts[0]?, parts[1]? with
  | some username, some password =>
      if username ≠ "" ∧ password ≠ "" then
        mapSet users (jsTrim username) (jsTrim password)
      else users
  | _, _ => users

/-- getDemoUsers from src/lib/auth.ts: `process.env.DEMO_USERS` (an unset or
empty variable falls back to the literal "admin:admin123") is split on ","
and each pair is processed by the forEach body. -/
def getDemoUsers (env : Option String) : List (String × String) :=
  let demoUsers :=
    match env with
    | none => "admin:admin123"
    | some s => if s = "" then "admin:admin123" else s
  (splitOnChar demoUsers ',').foldl parsePairStep []

/-! ## Session authenticator (src/lib/auth.ts, authorize) -/

/-- The authorize callback of the credentials provider: reject when either
credential is undefined or empty (JS falsiness), look the username up in the
parsed demo users, and succeed only when a non-empty stored password equals
the supplied password exactly. On success the issued session subject is the
username. -/
def authorize (env : Option String) (username password : Option String) :
    Option String :=
  match username, password with
  | some u, some p =>
      if u = "" ∨ p = "" then none
      else
        match mapGet (getDemoUsers env) u with
        | some storedPassword =>
            if storedPassword ≠ "" ∧ storedPassword = p then some u else none
        | none => none
  | _, _ => none

/-! ## Agent proxy handler (src/app/api/agent/route.ts) -/

/-- The `urls` field of the request body as it can arrive: absent, a bare
string, or a list of strings. -/
inductive UrlsInput : Type where
  | undef
  | str (s : String)
  | list (ss : List String)
deriving Repr, DecidableEq

/-- JS truthiness of the `urls` field: undefined and the empty string are
falsy, every array (even an empty one) is truthy. -/
def urlsTruthy : UrlsInput → Bool
  | .undef => false
  | .str s => s ≠ ""
  | .list _ => true

/-- URL normalization from the handler: when `urls` is truthy, wrap a bare
string into a one-element array, keep the entries whose trim is non-empty,
and attach the list to the agent arguments only when it is non-empty. -/
def normalizeUrls (urls : UrlsInput) : Option (List String) :=
  if urlsTruthy urls then
    let urlList :=
      match urls with
      | .list ss => ss
      | .str s => [s]
      | .undef => []
    let filteredUrls := urlList.filter (fun u => jsTrim u ≠ "")
    if filteredUrls.length > 0 then some filteredUrls else none
  else none

/-- The arguments the handler passes to `firecrawl.agent`. -/
structure AgentArgs : Type where
  prompt : String
  urls : Option (List String)
deriving Repr, DecidableEq

/-- The parsed request body of the agent endpoint: `prompt` is absent or a
string, `urls` as above. -/
structure AgentBody : Type where
  prompt : Option String
  urls : UrlsInput

/-- A value thrown by the adapter call: either an `Error` instance carrying
a message, or an arbitrary other JS value. -/
inductive Thrown : Type where
  | jsError (message : String)
  | value (v : JsonVal)

/-- Outcome of the awaited `firecrawl.agent(agentArgs)` call: a resolved
response object, or a thrown value caught by the handler. -/
inductive UpstreamOutcome : Type where
  | ok (result : List (String × JsonVal))
  | err (e : Thrown)

/-- Output extraction of the handler: the JS chain
`result.output || result.data || result.result || result.markdown || result.content`
takes the first truthy operand (else the value of the last one), and when
the chain is falsy the whole result object is substituted provided its
`success` field is defined. -/
def extractOutput (result : List (String × JsonVal)) : Option JsonVal :=
  let o1 := jsGet result "output"
  let o2 := jsGet result "data"
  let o3 := jsGet result "result"
  let o4 := jsGet result "markdown"
  let o5 := jsGet result "content"
  let output :=
    if jsTruthyOpt o1 then o1
    else if jsTruthyOpt o2 then o2
    else if jsTruthyOpt o3 then o3
    else if jsTruthyOpt o4 then o4
    else o5
  if ¬ jsTruthyOpt output then
    if (jsGet result "success").isSome then some (.obj result) else output
  else output

/-- The error message the catch block derives from a thrown value: the
message of an `Error` instance; JSON.stringify of a non-null thrown object
or array; otherwise the generic fallback text. -/
def errorMessageOf : Thrown → String
  | .jsError m => m
  | .value (.obj fs) => jsonStringify (.obj fs)
  | .value (.arr xs) => jsonStringify (.arr xs)
  | .value _ => "Agent request failed"

/-- The responses the agent handler can produce, shaped as the
NextResponse.json payloads of route.ts. -/
inductive AgentResponse : Type where
  | unauthorized
  | badRequest (error : String)
  | ok (output : Option JsonVal) (raw : List (String × JsonVal))
      (duration : String) (creditsUsed : Option JsonVal)
  | failure (error : String) (duration : String)

/-- HTTP status attached to each response shape. -/
def AgentResponse.status : AgentResponse → Nat
  | .unauthorized => 401
  | .badRequest _ => 400
  | .ok _ _ _ _ => 200
  | .failure _ _ => 500

/-- Value of the `success` field of the JSON body of each response shape;
the 401 and 400 bodies carry no such field. -/
def AgentResponse.successField : AgentResponse → Option Bool
  | .unauthorized => none
  | .badRequest _ => none
  | .ok _ _ _ _ => some true
  | .failure _ _ => some false

/-- The POST handler of src/app/api/agent/route.ts, with the wall-clock
duration string abstracted as a parameter and the upstream call passed as a
function. The second component counts how many times the upstream adapter
is invoked while serving the request. -/
def agentPOST (session : Bool) (body : AgentBody) (durationS : String)
    (upstream : AgentArgs → UpstreamOutcome) : AgentResponse × Nat :=
  if ¬ session then (.unauthorized, 0)
  else
    match body.prompt with
    | none =>
        (.badRequest "A prompt describing what you want to find is required", 0)
    | some prompt =>
        if prompt = "" then
          (.badRequest "A prompt describing what you want to find is required", 0)
        else if prompt.length < 10 then
          (.badRequest "Prompt must be at least 10 characters", 0)
        else
          let agentArgs : AgentArgs :=
            { prompt := prompt, urls := normalizeUrls body.urls }
          match upstream agentArgs with
          | .ok result =>
              (.ok (extractOutput result) result durationS
                (jsGet result "creditsUsed"), 1)
          | .err e =>
              (.failure (errorMessageOf e) durationS, 1)

/-! ## Spec-phrased extraction, for comparison with extractOutput -/

/-- Extraction as the spec sentence words it: the first PRESENT field among
output, data, result, markdown, content in that order, falling back to the
whole object if none is present and `success` is defined on it. -/
def firstPresentExtract (result : List (String × JsonVal)) : Option JsonVal :=
  match [jsGet result "output", jsGet result "data", jsGet result "result",
         jsGet result "markdown", jsGet result "content"].find?
        (fun v => v.isSome) with
  | some v => v
  | none =>
      if (jsGet result "success").isSome then some (.obj result) else none

/-- Extraction as the amended sentence words it: the first TRUTHY field
among output, data, result, markdown, content in that order; when none is
truthy, the whole object provided `success` is defined on it, else the
value of the last chain operand, `content`. -/
def firstTruthyExtract (result : List (String × JsonVal)) : Option JsonVal :=
  match [jsGet result "output", jsGet result "data", jsGet result "result",
         jsGet result "markdown", jsGet result "content"].find?
        (fun v => jsTruthyOpt v) with
  | some v => v
  | none =>
      if (jsGet result "success").isSome then some (.obj result)
      else jsGet result "content"

/-! ## Upstream adapter timeout (spec-modelled) and users DELETE -/

/-- Modelled from the spec: the Upstream Client Adapter (src/lib/firecrawl
is not among the sources). Per the spec it long-polls the external service
under a configured overall timeout of 300 seconds and surfaces a distinct
timeout failure, whose message names the timeout, instead of hanging; an
elapsed time within the limit resolves with the upstream result object. -/
def adapterAgent (timeoutS elapsedS : Nat) (result : List (String × JsonVal)) :
    UpstreamOutcome :=
  if elapsedS > timeoutS then
    .err (.jsError ("Agent request timeout after " ++ toString timeoutS ++ " seconds"))
  else .ok result

/-- Responses of the users DELETE endpoint. -/
inductive UsersDeleteResponse : Type where
  | forbidden (error : String)
  | notFound (error : String)
  | deleted (store : List (String × String))
deriving Repr

/-- HTTP status of each users DELETE response shape. -/
def UsersDeleteResponse.status : UsersDeleteResponse → Nat
  | .forbidden _ => 403
  | .notFound _ => 404
  | .deleted _ => 200

/-- Credential store visible after a users DELETE response: an error
response leaves the store as it was. -/
def UsersDeleteResponse.storeAfter (r : UsersDeleteResponse)
    (store : List (String × String)) : List (String × String) :=
  match r with
  | .deleted s => s
  | _ => store

/-- Modelled from the spec: the DELETE branch of the /api/users route
(src/app/api/users is not among the sources). Per the spec, removal of the
distinguished admin principal is refused with a forbidden error regardless
of caller, an unknown username is NotFound, and otherwise the entry is
removed from the in-memory store. -/
def usersDelete (store : List (String × String)) (username : String) :
    UsersDeleteResponse :=
  if username = "admin" then
    .forbidden "Cannot delete the admin user"
  else if (mapGet store username).isSome then
    .deleted (store.filter (fun p => p.1 ≠ username))
  else
    .notFound "User not found"

/-- The guard of the settings page user list (src/app/settings/page.tsx):
the Delete button is rendered for a row exactly when the username is not
the literal "admin". -/
def showsDeleteButton (username : String) : Bool :=
  username ≠ "admin"

/-! ## Theorems -/

/-- C1: for a non-empty input username and password, authorize succeeds and
issues a session for the username iff the parsed credential store maps that
username to exactly that password (case-sensitive string equality), and a
missing or empty username or password is always rejected. -/
theorem authorize_exact_match (env : Option String) (u p : String)
    (hu : u ≠ "") (hp : p ≠ "") :
    (authorize env (some u) (some p) = some u
      ↔ mapGet (getDemoUsers env) u = some p)
    ∧ authorize env none (some p) = none
    ∧ authorize env (some u) none = none
    ∧ authorize env (some "") (some p) = none
    ∧ authorize env (some u) (some "") = none := by
  refine ⟨?_, rfl, rfl, by simp [authorize], by simp [authorize]⟩
  show (if u = "" ∨ p = "" then none
    else match mapGet (getDemoUsers env) u with
      | some storedPassword =>
          if storedPassword ≠ "" ∧ storedPassword = p then some u else none
      | none => none) = some u ↔ mapGet (getDemoUsers env) u = some p
  rw [if_neg (by simp [hu, hp])]
  cases h : mapGet (getDemoUsers env) u with
  | none => simp
  | some sp =>
      constructor
      · intro h2
        by_cases hc : sp ≠ "" ∧ sp = p
        · simp [hc.2]
        · simp [hc] at h2
      · intro h2
        have hsp : sp = p := by simpa using h2
        simp [hsp, hp]

/-- Witness for C1 at the fallback store and the admin/admin123 pair. -/
theorem authorize_exact_match_witness :
    (authorize none (some "admin") (some "admin123") = some "admin"
      ↔ mapGet (getDemoUsers none) "admin" = some "admin123")
    ∧ authorize none none (some "admin123") = none
    ∧ authorize none (some "admin") none = none
    ∧ authorize none (some "") (some "admin123") = none
    ∧ authorize none (some "admin") (some "") = none :=
  authorize_exact_match none "admin" "admin123" (by decide) (by decide)

/-- C2 counterexample: on the upstream payload with a present but empty
`output` field and `result` "X", the code extracts "X", while the first
PRESENT field in the stated priority order is the empty `output`; the claim
as stated is therefore false at this input. -/
theorem extract_first_present_refuted :
    extractOutput [("output", .str ""), ("result", .str "X")] = some (.str "X")
    ∧ firstPresentExtract [("output", .str ""), ("result", .str "X")]
        = some (.str "")
    ∧ some (JsonVal.str "X") ≠ some (JsonVal.str "") :=
  ⟨rfl, rfl, by simp⟩

/-- C2 as amended: the extracted primary output equals the first TRUTHY
field (by JS truthiness) among output, data, result, markdown, content in
that order; when none is truthy the whole response object is used provided
a `success` field is defined on it; and in particular the payload with only
`result` "X" extracts "X". -/
theorem extract_output_first_truthy :
    (∀ result : List (String × JsonVal),
      extractOutput result = firstTruthyExtract result)
    ∧ extractOutput [("result", .str "X")] = some (.str "X") := by
  refine ⟨?_, rfl⟩
  intro result
  unfold extractOutput firstTruthyExtract
  simp only [List.find?]
  cases h1 : jsTruthyOpt (jsGet result "output") <;>
  cases h2 : jsTruthyOpt (jsGet result "data") <;>
  cases h3 : jsTruthyOpt (jsGet result "result") <;>
  cases h4 : jsTruthyOpt (jsGet result "markdown") <;>
  cases h5 : jsTruthyOpt (jsGet result "content") <;>
  simp [h1, h2, h3, h4, h5]

/-- C3: on an authenticated agent request, an absent prompt or a prompt
shorter than 10 characters yields status 400 with zero upstream calls, and
a prompt of length at least 10 reaches the upstream adapter exactly once. -/
theorem agent_prompt_min_length (urls : UrlsInput) (dur : String)
    (upstream : AgentArgs → UpstreamOutcome) :
    ((agentPOST true ⟨none, urls⟩ dur upstream).1.status = 400
      ∧ (agentPOST true ⟨none, urls⟩ dur upstream).2 = 0)
    ∧ (∀ p : String, p.length < 10 →
        (agentPOST true ⟨some p, urls⟩ dur upstream).1.status = 400
        ∧ (agentPOST true ⟨some p, urls⟩ dur upstream).2 = 0)
    ∧ (∀ p : String, 10 ≤ p.length →
        (agentPOST true ⟨some p, urls⟩ dur upstream).2 = 1) := by
  refine ⟨⟨rfl, rfl⟩, ?_, ?_⟩
  · intro p hlt
    by_cases hp : p = ""
    · subst hp; exact ⟨rfl, rfl⟩
    · constructor <;> simp [agentPOST, hp, hlt, AgentResponse.status]
  · intro p hge
    have hp : p ≠ "" := by
      intro h; subst h; simp [String.length] at hge
    have hnl : ¬ p.length < 10 := by omega
    cases h : upstream ⟨p, normalizeUrls urls⟩ <;>
      simp [agentPOST, hp, hnl, h]

/-- Witness for C3 at an absent prompt, the 5-character prompt "short" and
a 22-character prompt. -/
theorem agent_prompt_min_length_witness :
    ((agentPOST true ⟨none, .undef⟩ "0.1s" (fun _ => .ok [])).1.status = 400
      ∧ (agentPOST true ⟨none, .undef⟩ "0.1s" (fun _ => .ok [])).2 = 0)
    ∧ (("short" : String).length < 10
      ∧ (agentPOST true ⟨some "short", .undef⟩ "0.1s"
          (fun _ => .ok [])).1.status = 400
      ∧ (agentPOST true ⟨some "short", .undef⟩ "0.1s"
          (fun _ => .ok [])).2 = 0)
    ∧ (10 ≤ ("find all pricing pages" : String).length
      ∧ (agentPOST true ⟨some "find all pricing pages", .undef⟩ "0.1s"
          (fun _ => .ok [])).2 = 1) := by
  refine ⟨?_, ⟨by decide, ?_⟩, ⟨by decide, ?_⟩⟩
  · exact (agent_prompt_min_length UrlsInput.undef "0.1s" (fun _ => .ok [])).1
  · exact (agent_prompt_min_length UrlsInput.undef "0.1s" (fun _ => .ok [])).2.1
      "short" (by decide)
  · exact (agent_prompt_min_length UrlsInput.undef "0.1s" (fun _ => .ok [])).2.2
      "find all pricing pages" (by decide)

/-- C4: a request without a valid session is answered 401 unauthorized and
the upstream adapter is invoked zero times, whatever the body, duration and
upstream behavior are. -/
theorem agent_unauthenticated_401 (body : AgentBody) (dur : String)
    (upstream : AgentArgs → UpstreamOutcome) :
    agentPOST false body dur upstream = (.unauthorized, 0)
    ∧ (agentPOST false body dur upstream).1.status = 401 := by
  constructor
  · simp [agentPOST]
  · simp [agentPOST, AgentResponse.status]

/-- C5: credential parsing falls back to admin/admin123 when the
configuration variable is unset, skips without failing any pair whose split
on ":" yields fewer than two tokens (no colon), and stores the trimmed
username and password of every pair whose first two tokens are non-empty. -/
theorem demo_users_parsing :
    getDemoUsers none = [("admin", "admin123")]
    ∧ (∀ users pair, (splitOnChar pair ':').length < 2 →
        parsePairStep users pair = users)
    ∧ (∀ users pair u pw, (splitOnChar pair ':')[0]? = some u →
        (splitOnChar pair ':')[1]? = some pw → u ≠ "" → pw ≠ "" →
        parsePairStep users pair = mapSet users (jsTrim u) (jsTrim pw))
    ∧ getDemoUsers (some " alice : pw1 ,bad,admin:secret")
        = [("alice", "pw1"), ("admin", "secret")] := by
  refine ⟨by decide, ?_, ?_, by decide⟩
  · intro users pair hlen
    have h1 : (splitOnChar pair ':')[1]? = none := by
      rw [List.getElem?_eq_none]; omega
    unfold parsePairStep
    cases h0 : (splitOnChar pair ':')[0]? <;> simp [h0, h1]
  · intro users pair u pw h0 h1 hu hpw
    unfold parsePairStep
    simp [h0, h1, hu, hpw]

/-- Witness for C5 at the colon-free pair "bad" and the whitespace-padded
pair " alice : pw1 ". -/
theorem demo_users_parsing_witness :
    ((splitOnChar "bad" ':').length < 2 ∧ parsePairStep [] "bad" = [])
    ∧ ((splitOnChar " alice : pw1 " ':')[0]? = some " alice "
      ∧ (splitOnChar " alice : pw1 " ':')[1]? = some " pw1 "
      ∧ parsePairStep [] " alice : pw1 "
          = mapSet [] (jsTrim " alice ") (jsTrim " pw1 ")) := by
  refine ⟨⟨by decide, ?_⟩, ⟨by decide, by decide, ?_⟩⟩
  · exact demo_users_parsing.2.1 [] "bad" (by decide)
  · exact demo_users_parsing.2.2.1 [] " alice : pw1 " " alice " " pw1 "
      (by decide) (by decide) (by decide) (by decide)

/-- C6: when the adapter call throws on a validated authenticated request,
the handler (a total function, so it cannot crash) answers status 500 with
the envelope carrying success false, the derived error message and the
duration, exactly one upstream call having been made; and a thrown
structured non-Error object is serialized by JSON.stringify into the error
field rather than replaced by the generic message. -/
theorem agent_failure_envelope (p : String) (urls : UrlsInput) (dur : String)
    (t : Thrown) (hp : 10 ≤ p.length) :
    agentPOST true ⟨some p, urls⟩ dur (fun _ => .err t)
      = (.failure (errorMessageOf t) dur, 1)
    ∧ (agentPOST true ⟨some p, urls⟩ dur (fun _ => .err t)).1.status = 500
    ∧ (agentPOST true ⟨some p, urls⟩ dur
        (fun _ => .err t)).1.successField = some false
    ∧ (∀ fs, errorMessageOf (.value (.obj fs)) = jsonStringify (.obj fs)) := by
  have hpe : p ≠ "" := by
    intro h; subst h; simp [String.length] at hp
  have hnl : ¬ p.length < 10 := by omega
  refine ⟨?_, ?_, ?_, fun fs => rfl⟩ <;>
    simp [agentPOST, hpe, hnl, AgentResponse.status, AgentResponse.successField]

/-- Witness for C6 at a thrown structured object with a numeric code. -/
theorem agent_failure_envelope_witness :
    10 ≤ ("find all pricing pages" : String).length
    ∧ (agentPOST true ⟨some "find all pricing pages", .undef⟩ "1.0s"
        (fun _ => .err (.value (.obj [("code", .num 500)])))
      = (.failure (errorMessageOf (.value (.obj [("code", .num 500)]))) "1.0s", 1)
    ∧ (agentPOST true ⟨some "find all pricing pages", .undef⟩ "1.0s"
        (fun _ => .err (.value (.obj [("code", .num 500)])))).1.status = 500
    ∧ (agentPOST true ⟨some "find all pricing pages", .undef⟩ "1.0s"
        (fun _ => .err (.value (.obj [("code", .num 500)])))).1.successField
          = some false
    ∧ (∀ fs, errorMessageOf (.value (.obj fs)) = jsonStringify (.obj fs))) :=
  ⟨by decide, agent_failure_envelope "find all pricing pages" UrlsInput.undef "1.0s"
    (.value (.obj [("code", .num 500)])) (by decide)⟩

/-- C7: a truthy bare string in the urls field is normalized exactly as its
one-element list, list entries whose trim is empty are filtered out before
dispatch, and both "https://a.com" and the padded list normalize to the
single-element list. -/
theorem agent_urls_normalization :
    (∀ s : String, normalizeUrls (.str s) = normalizeUrls (.list [s]))
    ∧ (∀ ss : List String, normalizeUrls (.list ss)
        = (if (ss.filter (fun u => jsTrim u ≠ "")).length > 0
            then some (ss.filter (fun u => jsTrim u ≠ "")) else none))
    ∧ normalizeUrls (.str "https://a.com") = some ["https://a.com"]
    ∧ normalizeUrls (.list ["https://a.com", "  ", ""])
        = some ["https://a.com"] := by
  refine ⟨?_, ?_, by decide, by decide⟩
  · intro s
    by_cases hs : s = ""
    · subst hs; decide
    · simp [normalizeUrls, urlsTruthy, hs]
  · intro ss
    simp [normalizeUrls, urlsTruthy]

/-- C8: when the adapter exceeds its 300-second limit (301 seconds elapsed),
the handler answers (it is a total function, so it cannot hang) with status
500, success false, and an error message containing "timeout". -/
theorem agent_timeout_surfaced (p : String) (urls : UrlsInput) (dur : String)
    (r : List (String × JsonVal)) (hp : 10 ≤ p.length) :
    agentPOST true ⟨some p, urls⟩ dur (fun _ => adapterAgent 300 301 r)
      = (.failure "Agent request timeout after 300 seconds" dur, 1)
    ∧ (agentPOST true ⟨some p, urls⟩ dur
        (fun _ => adapterAgent 300 301 r)).1.status = 500
    ∧ (agentPOST true ⟨some p, urls⟩ dur
        (fun _ => adapterAgent 300 301 r)).1.successField = some false
    ∧ (∃ pre post : String,
        "Agent request timeout after 300 seconds" = pre ++ "timeout" ++ post) := by
  have hpe : p ≠ "" := by
    intro h; subst h; simp [String.length] at hp
  have hnl : ¬ p.length < 10 := by omega
  have hada : adapterAgent 300 301 r
      = .err (.jsError "Agent request timeout after 300 seconds") := rfl
  refine ⟨?_, ?_, ?_, ⟨"Agent request ", " after 300 seconds", by decide⟩⟩ <;>
    simp [agentPOST, hpe, hnl, hada, errorMessageOf,
      AgentResponse.status, AgentResponse.successField]

/-- Witness for C8 at a valid prompt, an empty upstream result object and
the simulated 301-second call. -/
theorem agent_timeout_surfaced_witness :
    10 ≤ ("find all pricing pages" : String).length
    ∧ (agentPOST true ⟨some "find all pricing pages", .undef⟩ "301.0s"
        (fun _ => adapterAgent 300 301 [])
      = (.failure "Agent request timeout after 300 seconds" "301.0s", 1)
    ∧ (agentPOST true ⟨some "find all pricing pages", .undef⟩ "301.0s"
        (fun _ => adapterAgent 300 301 [])).1.status = 500
    ∧ (agentPOST true ⟨some "find all pricing pages", .undef⟩ "301.0s"
        (fun _ => adapterAgent 300 301 [])).1.successField = some false
    ∧ (∃ pre post : String,
        "Agent request timeout after 300 seconds" = pre ++ "timeout" ++ post)) :=
  ⟨by decide, agent_timeout_surfaced "find all pricing pages" UrlsInput.undef "301.0s"
    [] (by decide)⟩

/-- C9: deleting the distinguished admin user always fails with the 403
forbidden error, leaves the credential store unchanged whatever it holds,
and the settings page renders no Delete button for the admin row. -/
theorem users_delete_admin_protected (store : List (String × String)) :
    usersDelete store "admin" = .forbidden "Cannot delete the admin user"
    ∧ (usersDelete store "admin").status = 403
    ∧ (usersDelete store "admin").storeAfter store = store
    ∧ showsDeleteButton "admin" = false :=
  ⟨rfl, rfl, rfl, rfl⟩

/-- C10: the configuration segment "bob:pa:ss" is parsed into the pair bob /
"pa" (only the text between the first and second colon), so authorize
accepts the truncated password "pa" and rejects the full "pa:ss". -/
theorem colon_password_truncated :
    getDemoUsers (some "bob:pa:ss") = [("bob", "pa")]
    ∧ authorize (some "bob:pa:ss") (some "bob") (some "pa") = some "bob"
    ∧ authorize (some "bob:pa:ss") (some "bob") (some "pa:ss") = none :=
  ⟨by decide, by decide, by decide⟩

end FirecrawlWebapp
